import Mathlib

/-!
# Pairwise incremental registration (`src/utils/src/pcl_icp.cpp`)

A shallow embedding of `loadData`, `pairAlign`, `pairAlignWithVisualization`
and `main`.  Scalars (`float`, `double`) are elements of an exact ordered
field `α`; the C math library, the file system and the PCL classes the program
calls are the records `MathLib`, `Files` and `Pcl`, whose fields the embedded
functions call where the source calls the library.  The visualizer calls have no effect
on any value computed and are left out.
-/

namespace PclIcp

/-! ## Data model -/

/-- The type `Eigen::Matrix4f`: a 4x4 matrix of scalars. -/
abbrev Matrix4 (α : Type) := Matrix (Fin 4) (Fin 4) α

/-- The type `Eigen::Vector3d`. -/
abbrev Vector3 (α : Type) := Fin 3 → α

/-- The point type `pcl::PointXYZ` (`PointT` in the source). -/
structure PointT (α : Type) where
  x : α
  y : α
  z : α
deriving DecidableEq, Repr

/-- The cloud type `pcl::PointCloud<PointT>`: the ordered sequence `points`. -/
abbrev PointCloud (α : Type) := List (PointT α)

/-- The point type `pcl::PointNormal` (`PointNormalT` in the source). -/
structure PointNormalT (α : Type) where
  x : α
  y : α
  z : α
  normal_x : α
  normal_y : α
  normal_z : α
  curvature : α
deriving DecidableEq, Repr

/-- The cloud type `pcl::PointCloud<PointNormalT>`. -/
abbrev PointCloudWithNormals (α : Type) := List (PointNormalT α)

/-- The struct `PCD` of the source: a cloud and the file it came from.  The file
name `dir + "scan" + %03d + ".pcd"` is represented by its scan index. -/
structure PCD (α : Type) where
  cloud : PointCloud α
  f_name : Int

/-- The settings of the `pcl::IterativeClosestPointNonLinear` object `reg` that
the source sets before calling `align`. -/
structure Registration (α : Type) where
  transformationEpsilon : α
  maxCorrespondenceDistance : α
  maximumIterations : Nat

/-- What one call of `reg.align` leaves behind: the aligned copy of the input
cloud, `getFinalTransformation ()`, `getLastIncrementalTransformation ()`, and
the number of correspondences its last internal step found (an observation of
the solver that the source never reads). -/
structure Aligned (α : Type) where
  output : PointCloudWithNormals α
  finalTransformation : Matrix4 α
  lastIncrementalTransformation : Matrix4 α
  nr_correspondences : Nat

/-- The C math library as the program uses it: `cos`, `sin`, `sqrt` (inside
`normalized ()`) and the constant `M_PI`. -/
structure MathLib (α : Type) where
  cos : α → α
  sin : α → α
  sqrt : α → α
  pi : α

/-- The scan and pose files by scan index: `none` for a file that cannot be
opened, otherwise the points, respectively the numbers, in the file. -/
structure Files (α : Type) where
  pcdFile : Int → Option (PointCloud α)
  poseFile : Int → Option (List α)

/-- The PCL classes the program calls: `pcl::VoxelGrid::filter` with leaf size
0.05; `pcl::NormalEstimation::compute` with `setKSearch (30)`; and `reg.align`
with the settings, the input cloud, the target cloud and the guess it is called
with. -/
structure Pcl (α : Type) where
  voxelGrid : PointCloud α → PointCloud α
  normalEstimation : PointCloud α → PointCloudWithNormals α
  align : Registration α → PointCloudWithNormals α → PointCloudWithNormals α →
    Matrix4 α → Aligned α

variable {α : Type}

/-! ## Eigen and PCL primitives with a fixed meaning -/

/-- The Eigen call `u.dot (v)` on `Vector3d`. -/
def dot [Field α] (u v : Vector3 α) : α :=
  u 0 * v 0 + u 1 * v 1 + u 2 * v 2

/-- The Eigen call `v.normalized ()`: `v` divided by its norm. -/
def normalized [Field α] (sqrt : α → α) (v : Vector3 α) : Vector3 α :=
  fun i => v i / sqrt (dot v v)

/-- The Eigen call `M.inverse ()` on a 4x4 matrix: the cofactor formula, the
adjugate divided by the determinant. -/
def inverse [Field α] (M : Matrix4 α) : Matrix4 α :=
  (M.det)⁻¹ • M.adjugate

/-- The Eigen call `M.sum ()`: the sum of all 16 coefficients. -/
def sum [Field α] (M : Matrix4 α) : α :=
  ∑ i : Fin 4, ∑ j : Fin 4, M i j

/-- One point under `pcl::transformPointCloud`: the first three rows of the
matrix applied to `(x, y, z, 1)`. -/
def transformPoint [Field α] (transform : Matrix4 α) (p : PointT α) : PointT α :=
  PointT.mk
    (transform 0 0 * p.x + transform 0 1 * p.y + transform 0 2 * p.z + transform 0 3)
    (transform 1 0 * p.x + transform 1 1 * p.y + transform 1 2 * p.z + transform 1 3)
    (transform 2 0 * p.x + transform 2 1 * p.y + transform 2 2 * p.z + transform 2 3)

/-- The call `pcl::transformPointCloud (cloud_in, cloud_out, transform)`: every
point of `cloud_in`, in order, transformed; the result replaces `cloud_out`. -/
def transformPointCloud [Field α] (cloud_in : PointCloud α) (transform : Matrix4 α) :
    PointCloud α :=
  cloud_in.map (transformPoint transform)

/-- The call `pcl::copyPointCloud (cloud_in, cloud_out)` from `PointT` to
`PointNormalT`: `cloud_out` is resized to `cloud_in` and takes its `x, y, z`. -/
def copyPointCloud [Field α] (cloud_in : PointCloud α)
    (cloud_out : PointCloudWithNormals α) : PointCloudWithNormals α :=
  cloud_in.enum.map fun ip =>
    let q := cloud_out.getD ip.1 (PointNormalT.mk 0 0 0 0 0 0 0)
    PointNormalT.mk ip.2.x ip.2.y ip.2.z q.normal_x q.normal_y q.normal_z q.curvature

/-! ## `loadData` -/

/-- The state `loadData` fills: `models` and `poses`. -/
structure Loaded (α : Type) where
  models : List (PCD α)
  poses : List (Vector3 α)

/-- The pose read by `pose_in >> pose(0) >> pose(1) >> tmp >> tmp >> tmp >> pose(2)`
into a vector initialised to zero: the first, second and sixth number of the
file; a number that cannot be read leaves zero. -/
def readPose [Field α] (file : Option (List α)) : Vector3 α :=
  match file with
  | none => ![0, 0, 0]
  | some xs => ![xs.getD 0 0, xs.getD 1 0, xs.getD 5 0]

/-- The body of the `for` loop of `loadData` for one `index`: the cloud of the
scan file (empty when it cannot be loaded; the return value of `loadPCDFile` is
not looked at) is appended to `models`, the pose to `poses`.  Coordinates are
field elements, so `removeNaNFromPointCloud` removes nothing. -/
def loadOne [Field α] (files : Files α) (index : Int) (acc : Loaded α) : Loaded α :=
  let m : PCD α := PCD.mk ((files.pcdFile index).getD []) index
  let pose := readPose (files.poseFile index)
  Loaded.mk (acc.models ++ [m]) (acc.poses ++ [pose])

/-- The loop `for (index = start_index; index <= end_index; index++)` of
`loadData`, from `index` on, with `fuel` bounding the number of rounds. -/
def loadDataFrom [Field α] (files : Files α) (end_index : Int) :
    Nat → Int → Loaded α → Loaded α
  | 0, _, acc => acc
  | fuel + 1, index, acc =>
    if index ≤ end_index then
      loadDataFrom files end_index fuel (index + 1) (loadOne files index acc)
    else acc

/-- The function `loadData`: `start_index` and `end_index` are `atoi (argv[2])`
and `atoi (argv[3])`.  The source formats every index it visits with
`sprintf (buf, "%03d", index)` into `char buf[4]`, which holds the indices
-99..999 only; the embedding gives the behaviour on those indices, and theorems
on `loadData` with arbitrary indices assume them in that range. -/
def loadData [Field α] (files : Files α) (start_index end_index : Int) : Loaded α :=
  loadDataFrom files end_index (end_index + 1 - start_index).toNat start_index
    (Loaded.mk [] [])

/-! ## `pairAlign` -/

/-- What `pairAlign` leaves behind: the two input clouds behind `cloud_src` and
`cloud_tgt`, the cloud behind `output`, and `final_transform`. -/
structure PairAligned (α : Type) where
  cloud_src : PointCloud α
  cloud_tgt : PointCloud α
  output : PointCloud α
  final_transform : Matrix4 α

/-- The matrix `Ti` of `pairAlign` (lines 198-255): the final transformation of
the registration of the (downsampled) clouds with their normals. -/
def pairAlignTi [Field α] (pcl : Pcl α) (cloud_src cloud_tgt : PointCloud α)
    (downsample : Bool) (guess : Matrix4 α) : Matrix4 α :=
  let src := if downsample then pcl.voxelGrid cloud_src else cloud_src
  let tgt := if downsample then pcl.voxelGrid cloud_tgt else cloud_tgt
  let points_with_normals_src := copyPointCloud src (pcl.normalEstimation src)
  let points_with_normals_tgt := copyPointCloud tgt (pcl.normalEstimation tgt)
  let reg : Registration α := Registration.mk (1 / 1000000) (5 / 10) 30
  (pcl.align reg points_with_normals_src points_with_normals_tgt guess).finalTransformation

/-- The function `pairAlign` (lines 191-273). -/
def pairAlign [Field α] (pcl : Pcl α) (cloud_src cloud_tgt : PointCloud α)
    (downsample : Bool) (guess : Matrix4 α) : PairAligned α :=
  let Ti := pairAlignTi pcl cloud_src cloud_tgt downsample guess
  let targetToSource := inverse Ti
  let output := transformPointCloud cloud_tgt targetToSource
  let output := output ++ cloud_src
  PairAligned.mk cloud_src cloud_tgt output targetToSource

/-! ## `main` -/

/-- The initial guess `main` builds from the two poses (lines 433-466). -/
def guess [Field α] (m : MathLib α) (pose_src0 pose_tgt0 : Vector3 α) : Matrix4 α :=
  let pose_tgt : Vector3 α := ![pose_tgt0 0, pose_tgt0 1, pose_tgt0 2 * m.pi / 180]
  let pose_src : Vector3 α := ![pose_src0 0, pose_src0 1, pose_src0 2 * m.pi / 180]
  let translation : Vector3 α := ![pose_src 0 - pose_tgt 0, pose_src 1 - pose_tgt 1, 0]
  let x_base_tgt : Vector3 α := ![m.cos (pose_tgt 2), m.sin (pose_tgt 2), 0]
  let y_base_tgt : Vector3 α := ![-m.sin (pose_tgt 2), m.cos (pose_tgt 2), 0]
  let z_base_tgt : Vector3 α := ![0, 0, 1]
  let x_base_tgt := normalized m.sqrt x_base_tgt
  let y_base_tgt := normalized m.sqrt y_base_tgt
  let x_base_src : Vector3 α := ![m.cos (pose_src 2), m.sin (pose_src 2), 0]
  let y_base_src : Vector3 α := ![-m.sin (pose_src 2), m.cos (pose_src 2), 0]
  let z_base_src : Vector3 α := ![0, 0, 1]
  let x_base_src := normalized m.sqrt x_base_src
  let y_base_src := normalized m.sqrt y_base_src
  !![dot x_base_tgt x_base_src, dot x_base_tgt y_base_src, dot x_base_tgt z_base_src,
       dot x_base_tgt translation;
     dot y_base_tgt x_base_src, dot y_base_tgt y_base_src, dot y_base_tgt z_base_src,
       dot y_base_tgt translation;
     dot z_base_tgt x_base_src, dot z_base_tgt y_base_src, dot z_base_tgt z_base_src,
       dot z_base_tgt translation;
     0, 0, 0, 1]

/-- The variables of `main` that its loop changes, and the files it has written:
`saved` lists, oldest first, the number `i` of each file `i.pcd` and the cloud
handed to `savePCDFile`. -/
structure MainState (α : Type) where
  result : PointCloud α
  GlobalTransform : Matrix4 α
  saved : List (Nat × PointCloud α)

/-- The call of `pairAlign` for pair `i` of `main`: scans `i-1` and `i` with the
guess from their poses (lines 426-468). -/
def pairOf [Field α] (m : MathLib α) (pcl : Pcl α) (data : List (PCD α))
    (poses : List (Vector3 α)) (i : Nat) : PairAligned α :=
  let source := (data.getD (i - 1) (PCD.mk [] 0)).cloud
  let target := (data.getD i (PCD.mk [] 0)).cloud
  let pose_src := poses.getD (i - 1) ![0, 0, 0]
  let pose_tgt := poses.getD i ![0, 0, 0]
  pairAlign pcl source target true (guess m pose_src pose_tgt)

/-- The body of the loop of `main` for one `i` (lines 426-476). -/
def mainStep [Field α] (m : MathLib α) (pcl : Pcl α) (data : List (PCD α))
    (poses : List (Vector3 α)) (st : MainState α) (i : Nat) : MainState α :=
  let pair := pairOf m pcl data poses i
  let temp := pair.output
  let pairTransform := pair.final_transform
  let result := transformPointCloud temp st.GlobalTransform
  let GlobalTransform := pairTransform * st.GlobalTransform
  MainState.mk result GlobalTransform (st.saved ++ [(i, result)])

/-- The first `n` rounds `i = 1, ..., n` of the loop of `main`, started with an
empty `result` and `GlobalTransform = Identity ()`. -/
def mainLoopFor [Field α] (m : MathLib α) (pcl : Pcl α) (data : List (PCD α))
    (poses : List (Vector3 α)) (n : Nat) : MainState α :=
  (List.range' 1 n).foldl (mainStep m pcl data poses) (MainState.mk [] 1 [])

/-- The loop `for (size_t i = 1; i < data.size (); ++i)` of `main`. -/
def mainLoop [Field α] (m : MathLib α) (pcl : Pcl α) (data : List (PCD α))
    (poses : List (Vector3 α)) : MainState α :=
  mainLoopFor m pcl data poses (data.length - 1)

/-- What a run of `main` yields: the exit code `main` returns (`none` when a
library call of its loop does not return to `main`, which then returns no exit
code), and the state of its loop when the loop ran to its end. -/
structure Exit (α : Type) where
  code : Option Int
  state : Option (MainState α)

/-- The function `main`: `return (-1)` when `data.empty ()`, otherwise the loop
and the exit code 0 of a `main` that runs to its end.  `returns i` tells whether
the library calls of round `i` of the loop (`pairAlign` with its registration,
`transformPointCloud`, `savePCDFile`) all return; when one does not, `main`
does not reach its end. -/
def main [Field α] (m : MathLib α) (pcl : Pcl α) (files : Files α) (returns : Nat → Bool)
    (start_index end_index : Int) : Exit α :=
  let loaded := loadData files start_index end_index
  if loaded.models.isEmpty then Exit.mk (some (-1)) none
  else if (List.range' 1 (loaded.models.length - 1)).all returns then
    Exit.mk (some 0) (some (mainLoop m pcl loaded.models loaded.poses))
  else Exit.mk none none

/-! ## `pairAlignWithVisualization` -/

/-- The variables the loop of `pairAlignWithVisualization` changes: `Ti`, `prev`,
the settings of `reg`, the cloud behind `reg_result`, and the round numbers
printed by `PCL_INFO ("Iteration Nr. %d.")`. -/
structure LoopState (α : Type) where
  Ti : Matrix4 α
  prev : Matrix4 α
  reg : Registration α
  reg_result : PointCloudWithNormals α
  log : List Nat

/-- The call of `reg.align` in round `i` (lines 353-364): with `guess` in round
0, without a guess (the identity by default) in every later round. -/
def alignCall [Field α] (pcl : Pcl α) (points_with_normals_tgt : PointCloudWithNormals α)
    (guess : Matrix4 α) (st : LoopState α) (i : Nat) : Aligned α :=
  let points_with_normals_src := st.reg_result
  if i = 0 then pcl.align st.reg points_with_normals_src points_with_normals_tgt guess
  else pcl.align st.reg points_with_normals_src points_with_normals_tgt 1

/-- The body of the loop of `pairAlignWithVisualization` for round `i`
(lines 351-377). -/
def alignRound [LinearOrderedField α] (pcl : Pcl α)
    (points_with_normals_tgt : PointCloudWithNormals α) (guess : Matrix4 α)
    (st : LoopState α) (i : Nat) : LoopState α :=
  let r := alignCall pcl points_with_normals_tgt guess st i
  let Ti := r.finalTransformation * st.Ti
  let reg :=
    if |sum (r.lastIncrementalTransformation - st.prev)| < st.reg.transformationEpsilon then
      Registration.mk st.reg.transformationEpsilon
        (st.reg.maxCorrespondenceDistance - 1 / 100) st.reg.maximumIterations
    else st.reg
  let prev := r.lastIncrementalTransformation
  LoopState.mk Ti prev reg r.output (st.log ++ [i])

/-- The state in which the loop of `pairAlignWithVisualization` starts
(lines 333-348). -/
def alignInit [Field α] (points_with_normals_src : PointCloudWithNormals α) :
    LoopState α :=
  LoopState.mk 1 1 (Registration.mk (1 / 1000000) (1 / 10) 2) points_with_normals_src []

/-- The first `n` rounds `i = 0, ..., n-1` of the loop of
`pairAlignWithVisualization`. -/
def alignRounds [LinearOrderedField α] (pcl : Pcl α)
    (points_with_normals_src points_with_normals_tgt : PointCloudWithNormals α)
    (guess : Matrix4 α) (n : Nat) : LoopState α :=
  (List.range n).foldl (alignRound pcl points_with_normals_tgt guess)
    (alignInit points_with_normals_src)

/-- The clouds with normals `pairAlignWithVisualization` registers (lines
289-324): source and target, downsampled on request. -/
def withNormals [Field α] (pcl : Pcl α) (cloud : PointCloud α) (downsample : Bool) :
    PointCloudWithNormals α :=
  let src := if downsample then pcl.voxelGrid cloud else cloud
  copyPointCloud src (pcl.normalEstimation src)

/-- The loop `for (int i = 0; i < 30; ++i)` of `pairAlignWithVisualization` on
the clouds it is called with. -/
def alignLoop [LinearOrderedField α] (pcl : Pcl α) (cloud_src cloud_tgt : PointCloud α)
    (downsample : Bool) (guess : Matrix4 α) : LoopState α :=
  alignRounds pcl (withNormals pcl cloud_src downsample)
    (withNormals pcl cloud_tgt downsample) guess 30

/-- The function `pairAlignWithVisualization` (lines 282-396). -/
def pairAlignWithVisualization [LinearOrderedField α] (pcl : Pcl α)
    (cloud_src cloud_tgt : PointCloud α) (downsample : Bool) (guess : Matrix4 α) :
    PairAligned α :=
  let Ti := (alignLoop pcl cloud_src cloud_tgt downsample guess).Ti
  let targetToSource := inverse Ti
  let output := transformPointCloud cloud_tgt targetToSource
  let output := output ++ cloud_src
  PairAligned.mk cloud_src cloud_tgt output targetToSource

/-! ## Rigid transforms -/

/-- The top-left 3x3 block of a 4x4 matrix (`M.block<3,3> (0, 0)` in Eigen
terms): the rotation part of a homogeneous transform. -/
def rotationBlock [Field α] (M : Matrix4 α) : Matrix (Fin 3) (Fin 3) α :=
  fun i j => M i.castSucc j.castSucc

/-- A rigid transform: the top-left 3x3 block is orthonormal with determinant
+1, and the bottom row is `(0, 0, 0, 1)`. -/
def RigidTransform [Field α] (M : Matrix4 α) : Prop :=
  (rotationBlock M).transpose * rotationBlock M = 1 ∧ (rotationBlock M).det = 1 ∧
    M 3 0 = 0 ∧ M 3 1 = 0 ∧ M 3 2 = 0 ∧ M 3 3 = 1

instance decidableRigidTransform [Field α] [DecidableEq α] (M : Matrix4 α) :
    Decidable (RigidTransform M) := by
  unfold RigidTransform
  infer_instance

/-! ## Concrete inputs -/

/-- The translation by `(tx, ty, tz)` as a 4x4 matrix. -/
def translationBy [Field α] (tx ty tz : α) : Matrix4 α :=
  !![1, 0, 0, tx; 0, 1, 0, ty; 0, 0, 1, tz; 0, 0, 0, 1]

/-- The rotation by a quarter turn about z, and the one by a quarter turn back. -/
def quarterTurn [Field α] (back : Bool) : Matrix4 α :=
  if back then !![0, 1, 0, 0; -1, 0, 0, 0; 0, 0, 1, 0; 0, 0, 0, 1]
  else !![0, -1, 0, 0; 1, 0, 0, 0; 0, 0, 1, 0; 0, 0, 0, 1]

/-- A PCL double: no downsampling, no normals, and a registration whose final
transformation is `A` for a one-point input cloud and `B` otherwise, with last
incremental transformation `L` and `n` correspondences. -/
def pclDouble [Field α] (A B L : Matrix4 α) (n : Nat) : Pcl α :=
  Pcl.mk id (fun _ => [])
    (fun _ src _ _ => Aligned.mk src (if src.length = 1 then A else B) L n)

/-- Scan files 0, 1, 2 with one, two and one point; no pose file. -/
def threeScans [Field α] : Files α :=
  Files.mk
    (fun index =>
      if index = 0 then some [PointT.mk 0 0 0]
      else if index = 1 then some [PointT.mk 0 0 0, PointT.mk 1 0 0]
      else if index = 2 then some [PointT.mk 0 1 0]
      else none)
    (fun _ => none)

/-- Scan files 0, 1, 2, 3: the three scans of `threeScans` and a fourth scan
with one point; no pose file. -/
def fourScans [Field α] : Files α :=
  Files.mk
    (fun index =>
      if index = 0 then some [PointT.mk 0 0 0]
      else if index = 1 then some [PointT.mk 0 0 0, PointT.mk 1 0 0]
      else if index = 2 then some [PointT.mk 0 1 0]
      else if index = 3 then some [PointT.mk 0 0 0]
      else none)
    (fun _ => none)

/-- No file can be opened. -/
def noFiles [Field α] : Files α :=
  Files.mk (fun _ => none) (fun _ => none)

/-- A PCL double for a registration that finds no correspondences: no
downsampling, no normals, the input cloud returned as it is, the guess as final
transformation, the identity as last incremental transformation, and 0
correspondences. -/
def pclStalled [Field α] : Pcl α :=
  Pcl.mk id (fun _ => []) (fun _ src _ g => Aligned.mk src g 1 0)

/-! ## Lemmas on the primitives -/

theorem inverse_eq_inv [Field α] (M : Matrix4 α) : inverse M = M⁻¹ := by
  simp [inverse, Matrix.inv_def, Ring.inverse_eq_inv']

theorem inverse_of_mul_eq_one [Field α] {A B : Matrix4 α} (h : A * B = 1) :
    inverse A = B := by
  rw [inverse_eq_inv]; exact Matrix.inv_eq_right_inv h

theorem translationBy_mul [Field α] (a b c x y z : α) :
    translationBy a b c * translationBy x y z = translationBy (a + x) (b + y) (c + z) := by
  ext i j
  fin_cases i <;> fin_cases j <;>
    simp [translationBy, Matrix.mul_apply, Fin.sum_univ_four, Matrix.vecHead,
      Matrix.vecTail, add_comm]

theorem translationBy_zero [Field α] : translationBy (0 : α) 0 0 = 1 := by
  ext i j
  fin_cases i <;> fin_cases j <;> simp [translationBy, Matrix.vecHead, Matrix.vecTail]

theorem isUnit_translationBy [Field α] (a b c : α) : IsUnit (translationBy a b c) :=
  ⟨⟨translationBy a b c, translationBy (-a) (-b) (-c),
    by rw [translationBy_mul]; simp [translationBy_zero],
    by rw [translationBy_mul]; simp [translationBy_zero]⟩, rfl⟩

theorem inverse_translationBy [Field α] (a b c : α) :
    inverse (translationBy a b c) = translationBy (-a) (-b) (-c) := by
  apply inverse_of_mul_eq_one
  rw [translationBy_mul]
  simp [translationBy_zero]

theorem inverse_quarterTurn [Field α] (back : Bool) :
    inverse (quarterTurn back : Matrix4 α) = quarterTurn (!back) := by
  apply inverse_of_mul_eq_one
  ext i j
  cases back <;> fin_cases i <;> fin_cases j <;>
    simp [quarterTurn, Matrix.mul_apply, Fin.sum_univ_four, Matrix.vecHead, Matrix.vecTail]

theorem copyPointCloud_length [Field α] (cloud_in : PointCloud α)
    (cloud_out : PointCloudWithNormals α) :
    (copyPointCloud cloud_in cloud_out).length = cloud_in.length := by
  simp [copyPointCloud]

theorem pairAlignTi_pclDouble [Field α] (A B L : Matrix4 α) (n : Nat)
    (cloud_src cloud_tgt : PointCloud α) (downsample : Bool) (g : Matrix4 α) :
    pairAlignTi (pclDouble A B L n) cloud_src cloud_tgt downsample g
      = if cloud_src.length = 1 then A else B := by
  cases downsample <;> simp [pairAlignTi, pclDouble, copyPointCloud_length]

theorem loadData_threeScans [Field α] :
    (loadData (threeScans : Files α) 0 2).models
      = [PCD.mk [PointT.mk 0 0 0] 0, PCD.mk [PointT.mk 0 0 0, PointT.mk 1 0 0] 1,
          PCD.mk [PointT.mk 0 1 0] 2] := by
  simp [loadData, loadDataFrom, loadOne, threeScans]

theorem loadData_fourScans [Field α] :
    (loadData (fourScans : Files α) 0 3).models
      = [PCD.mk [PointT.mk 0 0 0] 0, PCD.mk [PointT.mk 0 0 0, PointT.mk 1 0 0] 1,
          PCD.mk [PointT.mk 0 1 0] 2, PCD.mk [PointT.mk 0 0 0] 3] := by
  simp [loadData, loadDataFrom, loadOne, fourScans]

theorem mainLoopFor_zero [Field α] (m : MathLib α) (pcl : Pcl α) (data : List (PCD α))
    (poses : List (Vector3 α)) :
    mainLoopFor m pcl data poses 0 = MainState.mk [] 1 [] := by
  simp [mainLoopFor]

theorem mainLoopFor_succ [Field α] (m : MathLib α) (pcl : Pcl α) (data : List (PCD α))
    (poses : List (Vector3 α)) (n : Nat) :
    mainLoopFor m pcl data poses (n + 1)
      = mainStep m pcl data poses (mainLoopFor m pcl data poses n) (n + 1) := by
  simp [mainLoopFor, List.range'_concat, List.foldl_append, Nat.add_comm]

theorem transformPointCloud_one [Field α] (cloud : PointCloud α) :
    transformPointCloud cloud 1 = cloud := by
  have h : transformPoint (1 : Matrix4 α) = id := by
    funext p
    cases p
    simp [transformPoint, Matrix.one_apply]
  simp [transformPointCloud, h]

/-! ## The Global Transform Composer -/

/-- C1 holds of the frames and fails on the code: pairTransform of pair `i` takes
the frame of scan `i` to the frame of scan `i - 1`, so the transform "into the
first cloud's frame" of the comments of lines 469-473 is GlobalTransform times
pairTransform, as the claim says, while line 472 computes pairTransform times
GlobalTransform.  On the scans 0, 1, 2, 3 with pairwise transforms the
translation by (1, 0, 0), a quarter turn about z, and the translation by
(1, 0, 0), the GlobalTransform after pair 2 is not the GlobalTransform after
pair 1 times the pairwise transform of pair 2; the point (0, 1, 0) of scan 2
is written at (0, 0, 0) in file 2 and at (-1, 1, 0) in file 3, where the
product of the claim puts it at (0, 0, 0) again. -/
theorem globalTransform_left_product_misplaces :
    (mainLoopFor (MathLib.mk Real.cos Real.sin Real.sqrt Real.pi)
        (pclDouble (translationBy (-1) 0 0) (quarterTurn true) 1 1)
        (loadData fourScans 0 3).models (loadData fourScans 0 3).poses 2).GlobalTransform
      ≠ (mainLoopFor (MathLib.mk Real.cos Real.sin Real.sqrt Real.pi)
          (pclDouble (translationBy (-1) 0 0) (quarterTurn true) 1 1)
          (loadData fourScans 0 3).models (loadData fourScans 0 3).poses 1).GlobalTransform
        * (pairOf (MathLib.mk Real.cos Real.sin Real.sqrt Real.pi)
          (pclDouble (translationBy (-1) 0 0) (quarterTurn true) 1 1)
          (loadData fourScans 0 3).models (loadData fourScans 0 3).poses 2).final_transform ∧
    (mainLoopFor (MathLib.mk Real.cos Real.sin Real.sqrt Real.pi)
        (pclDouble (translationBy (-1) 0 0) (quarterTurn true) 1 1)
        (loadData fourScans 0 3).models (loadData fourScans 0 3).poses 3).saved
      = [(1, [PointT.mk 1 0 0, PointT.mk 2 0 0, PointT.mk 0 0 0]),
          (2, [PointT.mk 0 0 0, PointT.mk 1 0 0, PointT.mk 2 0 0]),
          (3, [PointT.mk 0 2 0, PointT.mk (-1) 1 0])] ∧
    transformPoint
        ((mainLoopFor (MathLib.mk Real.cos Real.sin Real.sqrt Real.pi)
            (pclDouble (translationBy (-1) 0 0) (quarterTurn true) 1 1)
            (loadData fourScans 0 3).models (loadData fourScans 0 3).poses 1).GlobalTransform
          * (pairOf (MathLib.mk Real.cos Real.sin Real.sqrt Real.pi)
            (pclDouble (translationBy (-1) 0 0) (quarterTurn true) 1 1)
            (loadData fourScans 0 3).models (loadData fourScans 0 3).poses 2).final_transform)
        (PointT.mk 0 1 0)
      = PointT.mk 0 0 0 := by
  refine ⟨?_, ?_, ?_⟩
  · intro h
    have h03 := congrFun (congrFun h 0) 3
    simp only [mainLoopFor_succ, mainLoopFor_zero, mainStep, pairOf, pairAlign,
      pairAlignTi_pclDouble, loadData_fourScans, inverse_translationBy,
      inverse_quarterTurn, List.getD_cons_zero, List.getD_cons_succ, List.length_cons,
      List.length_nil, Nat.reduceAdd, Nat.reduceSub, Nat.reduceEqDiff, if_true, if_false,
      mul_one, one_mul] at h03
    simp [translationBy, quarterTurn, Matrix.mul_apply,
      Fin.sum_univ_four, Matrix.vecHead, Matrix.vecTail] at h03
  · simp only [mainLoopFor_succ, mainLoopFor_zero, mainStep, pairOf, pairAlign,
      pairAlignTi_pclDouble, loadData_fourScans, inverse_translationBy,
      inverse_quarterTurn, List.getD_cons_zero, List.getD_cons_succ, List.length_cons,
      List.length_nil, Nat.reduceAdd, Nat.reduceSub, Nat.reduceEqDiff, if_true, if_false,
      mul_one, one_mul]
    simp [transformPointCloud, transformPoint, translationBy, quarterTurn, Matrix.mul_apply,
      Fin.sum_univ_four, Matrix.vecHead, Matrix.vecTail]
    norm_num
  · simp only [mainLoopFor_succ, mainLoopFor_zero, mainStep, pairOf, pairAlign,
      pairAlignTi_pclDouble, loadData_fourScans, inverse_translationBy,
      inverse_quarterTurn, List.getD_cons_zero, List.getD_cons_succ, List.length_cons,
      List.length_nil, Nat.reduceAdd, Nat.reduceSub, Nat.reduceEqDiff, if_true, if_false,
      mul_one, one_mul]
    simp [transformPoint, translationBy, quarterTurn, Matrix.mul_apply,
      Fin.sum_univ_four, Matrix.vecHead, Matrix.vecTail]

/-- C2, as stated, fails: for the first pair of the scans 0, 1, 2 with pairwise
transform the translation by (1, 0, 0), the cloud handed to the writer is the
aligned output cloud itself (transformed by the identity GlobalTransform of
before the pair), not that cloud transformed by the updated GlobalTransform. -/
theorem saved_cloud_updated_transform_fails :
    (mainLoopFor (MathLib.mk Real.cos Real.sin Real.sqrt Real.pi)
        (pclDouble (translationBy (-1) 0 0) (quarterTurn true) 1 1)
        (loadData threeScans 0 2).models (loadData threeScans 0 2).poses 1).saved
      = [(1, [PointT.mk 1 0 0, PointT.mk 2 0 0, PointT.mk 0 0 0])] ∧
    transformPointCloud
        (pairOf (MathLib.mk Real.cos Real.sin Real.sqrt Real.pi)
          (pclDouble (translationBy (-1) 0 0) (quarterTurn true) 1 1)
          (loadData threeScans 0 2).models (loadData threeScans 0 2).poses 1).output
        (mainLoopFor (MathLib.mk Real.cos Real.sin Real.sqrt Real.pi)
          (pclDouble (translationBy (-1) 0 0) (quarterTurn true) 1 1)
          (loadData threeScans 0 2).models (loadData threeScans 0 2).poses 1).GlobalTransform
      = [PointT.mk 2 0 0, PointT.mk 3 0 0, PointT.mk 1 0 0] ∧
    (mainLoopFor (MathLib.mk Real.cos Real.sin Real.sqrt Real.pi)
        (pclDouble (translationBy (-1) 0 0) (quarterTurn true) 1 1)
        (loadData threeScans 0 2).models (loadData threeScans 0 2).poses 1).saved
      ≠ [(1, transformPointCloud
        (pairOf (MathLib.mk Real.cos Real.sin Real.sqrt Real.pi)
          (pclDouble (translationBy (-1) 0 0) (quarterTurn true) 1 1)
          (loadData threeScans 0 2).models (loadData threeScans 0 2).poses 1).output
        (mainLoopFor (MathLib.mk Real.cos Real.sin Real.sqrt Real.pi)
          (pclDouble (translationBy (-1) 0 0) (quarterTurn true) 1 1)
          (loadData threeScans 0 2).models (loadData threeScans 0 2).poses
          1).GlobalTransform)] := by
  simp only [mainLoopFor_succ, mainLoopFor_zero, mainStep, pairOf, pairAlign,
    pairAlignTi_pclDouble, loadData_threeScans, inverse_translationBy,
    inverse_quarterTurn, List.getD_cons_zero, List.getD_cons_succ, List.length_cons,
    List.length_nil, Nat.reduceAdd, Nat.reduceSub, Nat.reduceEqDiff, if_true, if_false,
    mul_one, one_mul]
  refine ⟨?_, ?_, ?_⟩ <;>
    simp [transformPointCloud, transformPoint, translationBy, Matrix.vecHead,
      Matrix.vecTail] <;> norm_num

/-- C2, amended: in every round of the loop of `main` the cloud handed to the
writer is the pair's aligned output cloud transformed by the GlobalTransform as
it was BEFORE that pair's update; for the first pair that is the identity, so
the aligned output cloud is written unchanged. -/
theorem saved_cloud_previous_transform [Field α] (m : MathLib α) (pcl : Pcl α)
    (data : List (PCD α)) (poses : List (Vector3 α)) (n : Nat) :
    (mainLoopFor m pcl data poses (n + 1)).saved
      = (mainLoopFor m pcl data poses n).saved
        ++ [(n + 1, transformPointCloud (pairOf m pcl data poses (n + 1)).output
              (mainLoopFor m pcl data poses n).GlobalTransform)] ∧
    (mainLoopFor m pcl data poses (n + 1)).result
      = transformPointCloud (pairOf m pcl data poses (n + 1)).output
          (mainLoopFor m pcl data poses n).GlobalTransform ∧
    (mainLoopFor m pcl data poses 1).saved = [(1, (pairOf m pcl data poses 1).output)] := by
  refine ⟨?_, ?_, ?_⟩
  · rw [mainLoopFor_succ]; rfl
  · rw [mainLoopFor_succ]; rfl
  · rw [mainLoopFor_succ, mainLoopFor_zero]
    simp [mainStep, transformPointCloud_one]

/-! ## The pose-seeded initial guess -/

theorem normalized_x_base (h : ℝ) :
    normalized Real.sqrt ![Real.cos h, Real.sin h, 0] = ![Real.cos h, Real.sin h, 0] := by
  have hn : dot ![Real.cos h, Real.sin h, 0] ![Real.cos h, Real.sin h, 0] = 1 := by
    simp [dot]
    nlinarith [Real.sin_sq_add_cos_sq h]
  funext i
  simp [normalized, hn]

theorem normalized_y_base (h : ℝ) :
    normalized Real.sqrt ![-Real.sin h, Real.cos h, 0] = ![-Real.sin h, Real.cos h, 0] := by
  have hn : dot ![-Real.sin h, Real.cos h, 0] ![-Real.sin h, Real.cos h, 0] = 1 := by
    simp [dot]
    nlinarith [Real.sin_sq_add_cos_sq h]
  funext i
  simp [normalized, hn]

theorem dot_cons [Field α] (a b c x y z : α) :
    dot ![a, b, c] ![x, y, z] = a * x + b * y + c * z := by
  simp [dot]

theorem guess_entries (xs ys ds xt yt dt : ℝ) :
    guess (MathLib.mk Real.cos Real.sin Real.sqrt Real.pi) ![xs, ys, ds] ![xt, yt, dt]
      = !![Real.cos (ds * Real.pi / 180 - dt * Real.pi / 180),
            -Real.sin (ds * Real.pi / 180 - dt * Real.pi / 180), 0,
            Real.cos (dt * Real.pi / 180) * (xs - xt)
              + Real.sin (dt * Real.pi / 180) * (ys - yt);
          Real.sin (ds * Real.pi / 180 - dt * Real.pi / 180),
            Real.cos (ds * Real.pi / 180 - dt * Real.pi / 180), 0,
            -Real.sin (dt * Real.pi / 180) * (xs - xt)
              + Real.cos (dt * Real.pi / 180) * (ys - yt);
          0, 0, 1, 0;
          0, 0, 0, 1] := by
  simp only [guess, Matrix.cons_val_zero, Matrix.cons_val_one, Matrix.cons_val_two,
    Matrix.head_cons, Matrix.tail_cons, normalized_x_base, normalized_y_base, dot_cons,
    Real.cos_sub, Real.sin_sub]
  ext i j
  fin_cases i <;> fin_cases j <;>
    simp [Matrix.vecHead, Matrix.vecTail] <;> ring

/-- C3: over the reals, for a source pose `(xs, ys, ds)` and a target pose
`(xt, yt, dt)` with headings stored in degrees, and `hs = ds * pi / 180`,
`ht = dt * pi / 180` the headings in radians, the guess of `main` has the
rotation about z by `hs - ht` as its rotation block, the planar offset
`(xs - xt, ys - yt)` expressed in the target frame as its translation column,
and the bottom row `(0, 0, 0, 1)`; normalising the basis vectors changes
nothing. -/
theorem guess_is_relative_pose (xs ys ds xt yt dt : ℝ) :
    guess (MathLib.mk Real.cos Real.sin Real.sqrt Real.pi) ![xs, ys, ds] ![xt, yt, dt]
      = !![Real.cos (ds * Real.pi / 180 - dt * Real.pi / 180),
            -Real.sin (ds * Real.pi / 180 - dt * Real.pi / 180), 0,
            Real.cos (dt * Real.pi / 180) * (xs - xt)
              + Real.sin (dt * Real.pi / 180) * (ys - yt);
          Real.sin (ds * Real.pi / 180 - dt * Real.pi / 180),
            Real.cos (ds * Real.pi / 180 - dt * Real.pi / 180), 0,
            -Real.sin (dt * Real.pi / 180) * (xs - xt)
              + Real.cos (dt * Real.pi / 180) * (ys - yt);
          0, 0, 1, 0;
          0, 0, 0, 1] ∧
    normalized Real.sqrt ![Real.cos (ds * Real.pi / 180), Real.sin (ds * Real.pi / 180), 0]
      = ![Real.cos (ds * Real.pi / 180), Real.sin (ds * Real.pi / 180), 0] ∧
    normalized Real.sqrt ![-Real.sin (ds * Real.pi / 180), Real.cos (ds * Real.pi / 180), 0]
      = ![-Real.sin (ds * Real.pi / 180), Real.cos (ds * Real.pi / 180), 0] ∧
    normalized Real.sqrt ![Real.cos (dt * Real.pi / 180), Real.sin (dt * Real.pi / 180), 0]
      = ![Real.cos (dt * Real.pi / 180), Real.sin (dt * Real.pi / 180), 0] ∧
    normalized Real.sqrt ![-Real.sin (dt * Real.pi / 180), Real.cos (dt * Real.pi / 180), 0]
      = ![-Real.sin (dt * Real.pi / 180), Real.cos (dt * Real.pi / 180), 0] :=
  ⟨guess_entries xs ys ds xt yt dt, normalized_x_base _, normalized_y_base _,
    normalized_x_base _, normalized_y_base _⟩

/-- C5: for every source cloud, target cloud, guess and downsample flag, if the
final transformation `Ti` of the registration is invertible, then
`final_transform` is the inverse of `Ti`, the output cloud is the points of the
full-resolution target cloud, each transformed by that inverse and in their
order, followed by the points of the full-resolution source cloud, so it has
`|target| + |source|` points, and the input clouds are as they were. -/
theorem pairAlign_result [Field α] (pcl : Pcl α) (cloud_src cloud_tgt : PointCloud α)
    (downsample : Bool) (g : Matrix4 α)
    (hTi : IsUnit (pairAlignTi pcl cloud_src cloud_tgt downsample g)) :
    (pairAlign pcl cloud_src cloud_tgt downsample g).final_transform
      = (pairAlignTi pcl cloud_src cloud_tgt downsample g)⁻¹ ∧
    (pairAlign pcl cloud_src cloud_tgt downsample g).final_transform
      * pairAlignTi pcl cloud_src cloud_tgt downsample g = 1 ∧
    pairAlignTi pcl cloud_src cloud_tgt downsample g
      * (pairAlign pcl cloud_src cloud_tgt downsample g).final_transform = 1 ∧
    (pairAlign pcl cloud_src cloud_tgt downsample g).output
      = cloud_tgt.map
          (transformPoint (pairAlign pcl cloud_src cloud_tgt downsample g).final_transform)
        ++ cloud_src ∧
    (pairAlign pcl cloud_src cloud_tgt downsample g).output.length
      = cloud_tgt.length + cloud_src.length ∧
    (pairAlign pcl cloud_src cloud_tgt downsample g).cloud_src = cloud_src ∧
    (pairAlign pcl cloud_src cloud_tgt downsample g).cloud_tgt = cloud_tgt := by
  have hdet := (Matrix.isUnit_iff_isUnit_det _).mp hTi
  refine ⟨?_, ?_, ?_, ?_, ?_, rfl, rfl⟩
  · simp [pairAlign, inverse_eq_inv]
  · simp only [pairAlign, inverse_eq_inv]
    exact Matrix.nonsing_inv_mul _ hdet
  · simp only [pairAlign, inverse_eq_inv]
    exact Matrix.mul_nonsing_inv _ hdet
  · simp [pairAlign, transformPointCloud]
  · simp [pairAlign, transformPointCloud]

/-- C5 at a concrete input: the registration returns the translation by
(-1, 0, 0), the target cloud has two points and the source cloud one. -/
theorem pairAlign_result_witness :
    IsUnit (pairAlignTi (pclDouble (translationBy (-1 : ℚ) 0 0) 1 1 1)
      [PointT.mk 0 0 0] [PointT.mk 5 0 0, PointT.mk 0 7 0] true 1) ∧
    (pairAlign (pclDouble (translationBy (-1 : ℚ) 0 0) 1 1 1)
      [PointT.mk 0 0 0] [PointT.mk 5 0 0, PointT.mk 0 7 0] true 1).output
      = [PointT.mk 6 0 0, PointT.mk 1 7 0, PointT.mk 0 0 0] := by
  have hTi : IsUnit (pairAlignTi (pclDouble (translationBy (-1 : ℚ) 0 0) 1 1 1)
      [PointT.mk 0 0 0] [PointT.mk 5 0 0, PointT.mk 0 7 0] true 1) := by
    rw [pairAlignTi_pclDouble]
    simp only [List.length_cons, List.length_nil, Nat.reduceAdd, if_true]
    exact isUnit_translationBy _ _ _
  refine ⟨hTi, ?_⟩
  rw [(pairAlign_result _ _ _ true 1 hTi).2.2.2.1]
  simp only [pairAlign, pairAlignTi_pclDouble, List.length_cons, List.length_nil,
    Nat.reduceAdd, if_true, inverse_translationBy]
  simp [transformPoint, translationBy, Matrix.vecHead, Matrix.vecTail]
  norm_num

/-! ## The loop of `pairAlignWithVisualization` -/

theorem alignRounds_zero [LinearOrderedField α] (pcl : Pcl α)
    (src tgt : PointCloudWithNormals α) (g : Matrix4 α) :
    alignRounds pcl src tgt g 0 = alignInit src := by
  simp [alignRounds]

theorem alignRounds_succ [LinearOrderedField α] (pcl : Pcl α)
    (src tgt : PointCloudWithNormals α) (g : Matrix4 α) (n : Nat) :
    alignRounds pcl src tgt g (n + 1)
      = alignRound pcl tgt g (alignRounds pcl src tgt g n) n := by
  simp [alignRounds, List.range_succ, List.foldl_append]

theorem alignRound_epsilon [LinearOrderedField α] (pcl : Pcl α)
    (tgt : PointCloudWithNormals α) (g : Matrix4 α) (st : LoopState α) (i : Nat) :
    (alignRound pcl tgt g st i).reg.transformationEpsilon = st.reg.transformationEpsilon := by
  unfold alignRound
  dsimp only
  split_ifs <;> rfl

theorem alignRounds_epsilon [LinearOrderedField α] (pcl : Pcl α)
    (src tgt : PointCloudWithNormals α) (g : Matrix4 α) (n : Nat) :
    (alignRounds pcl src tgt g n).reg.transformationEpsilon = 1 / 1000000 := by
  induction n with
  | zero => simp [alignRounds_zero, alignInit]
  | succ k ih => rw [alignRounds_succ, alignRound_epsilon, ih]

theorem alignRounds_log [LinearOrderedField α] (pcl : Pcl α)
    (src tgt : PointCloudWithNormals α) (g : Matrix4 α) (n : Nat) :
    (alignRounds pcl src tgt g n).log = List.range n := by
  induction n with
  | zero => simp [alignRounds_zero, alignInit]
  | succ k ih =>
    rw [alignRounds_succ, List.range_succ, ← ih]
    rfl

theorem alignRound_distance [LinearOrderedField α] (pcl : Pcl α)
    (tgt : PointCloudWithNormals α) (g : Matrix4 α) (st : LoopState α) (i : Nat) :
    (alignRound pcl tgt g st i).reg.maxCorrespondenceDistance
      = if |sum ((alignCall pcl tgt g st i).lastIncrementalTransformation - st.prev)|
            < st.reg.transformationEpsilon
        then st.reg.maxCorrespondenceDistance - 1 / 100
        else st.reg.maxCorrespondenceDistance := by
  unfold alignRound
  dsimp only
  split_ifs <;> rfl

theorem alignRound_Ti [LinearOrderedField α] (pcl : Pcl α)
    (tgt : PointCloudWithNormals α) (g : Matrix4 α) (st : LoopState α) (i : Nat) :
    (alignRound pcl tgt g st i).Ti
      = (alignCall pcl tgt g st i).finalTransformation * st.Ti := rfl

theorem alignRound_prev [LinearOrderedField α] (pcl : Pcl α)
    (tgt : PointCloudWithNormals α) (g : Matrix4 α) (st : LoopState α) (i : Nat) :
    (alignRound pcl tgt g st i).prev
      = (alignCall pcl tgt g st i).lastIncrementalTransformation := rfl

theorem sum_zero [Field α] : sum (0 : Matrix4 α) = 0 := by
  simp [sum]

theorem alignRounds_pclStalled [LinearOrderedField α] (src tgt : PointCloudWithNormals α)
    (g : Matrix4 α) (n : Nat) :
    (alignRounds pclStalled src tgt g n).prev = 1 ∧
    (alignRounds pclStalled src tgt g n).reg.maxCorrespondenceDistance
      = 1 / 10 - (n : α) / 100 := by
  induction n with
  | zero => simp [alignRounds_zero, alignInit]
  | succ k ih =>
    have hL : (alignCall pclStalled tgt g (alignRounds pclStalled src tgt g k)
        k).lastIncrementalTransformation = 1 := by
      unfold alignCall pclStalled
      dsimp only
      split_ifs <;> rfl
    refine ⟨?_, ?_⟩
    · rw [alignRounds_succ, alignRound_prev, hL]
    · rw [alignRounds_succ, alignRound_distance, hL, ih.1, alignRounds_epsilon, ih.2]
      simp [sum_zero]
      ring

theorem alignRounds_distance_le [LinearOrderedField α] (pcl : Pcl α)
    (src tgt : PointCloudWithNormals α) (g : Matrix4 α) (n : Nat) :
    (alignRounds pcl src tgt g n).reg.maxCorrespondenceDistance ≤ 1 / 10 := by
  induction n with
  | zero => simp [alignRounds_zero, alignInit]
  | succ k ih =>
    rw [alignRounds_succ, alignRound_distance]
    split_ifs
    · linarith
    · exact ih

/-- C6, as stated, fails: with a registration whose last incremental
transformation is the identity in every round, every round shrinks
maxCorrespondenceDistance; it is below zero after 11 rounds and at the end of
the 30 rounds of the loop, so no positive floor holds it. -/
theorem maxCorrespondenceDistance_floor_fails :
    (alignRounds (pclStalled : Pcl ℚ) (withNormals pclStalled [PointT.mk 0 0 0] false)
      (withNormals pclStalled [PointT.mk 1 0 0] false) 1
      11).reg.maxCorrespondenceDistance < 0 ∧
    (alignLoop (pclStalled : Pcl ℚ) [PointT.mk 0 0 0] [PointT.mk 1 0 0] false
      1).reg.maxCorrespondenceDistance < 0 := by
  constructor
  · rw [(alignRounds_pclStalled _ _ _ 11).2]
    norm_num
  · unfold alignLoop
    rw [(alignRounds_pclStalled _ _ _ 30).2]
    norm_num

/-- C6, amended: maxCorrespondenceDistance is not clamped at any floor.  It
starts at 1/10, and every round either leaves it as it is or replaces it by
itself minus 1/100; so it never rises and never exceeds 1/10, during the loop
and at its end, and nothing keeps it positive: with a registration whose last
incremental transformation is the identity in every round it ends below
zero. -/
theorem maxCorrespondenceDistance_unclamped [LinearOrderedField α] (pcl : Pcl α)
    (src tgt : PointCloudWithNormals α) (g : Matrix4 α) (n : Nat)
    (cloud_src cloud_tgt : PointCloud α) (downsample : Bool) :
    (alignRounds pcl src tgt g 0).reg.maxCorrespondenceDistance = 1 / 10 ∧
    ((alignRounds pcl src tgt g (n + 1)).reg.maxCorrespondenceDistance
        = (alignRounds pcl src tgt g n).reg.maxCorrespondenceDistance ∨
      (alignRounds pcl src tgt g (n + 1)).reg.maxCorrespondenceDistance
        = (alignRounds pcl src tgt g n).reg.maxCorrespondenceDistance - 1 / 100) ∧
    (alignRounds pcl src tgt g (n + 1)).reg.maxCorrespondenceDistance
      ≤ (alignRounds pcl src tgt g n).reg.maxCorrespondenceDistance ∧
    (alignRounds pcl src tgt g n).reg.maxCorrespondenceDistance ≤ 1 / 10 ∧
    (alignLoop pcl cloud_src cloud_tgt downsample g).reg.maxCorrespondenceDistance
      ≤ 1 / 10 ∧
    (alignLoop pclStalled cloud_src cloud_tgt downsample g).reg.maxCorrespondenceDistance
      < 0 := by
  have hstep : (alignRounds pcl src tgt g (n + 1)).reg.maxCorrespondenceDistance
        = (alignRounds pcl src tgt g n).reg.maxCorrespondenceDistance ∨
      (alignRounds pcl src tgt g (n + 1)).reg.maxCorrespondenceDistance
        = (alignRounds pcl src tgt g n).reg.maxCorrespondenceDistance - 1 / 100 := by
    rw [alignRounds_succ, alignRound_distance]
    split_ifs
    · exact Or.inr rfl
    · exact Or.inl rfl
  refine ⟨by simp [alignRounds_zero, alignInit], hstep, ?_,
    alignRounds_distance_le pcl src tgt g n, ?_, ?_⟩
  · rcases hstep with h | h
    · rw [h]
    · rw [h]
      linarith
  · exact alignRounds_distance_le pcl (withNormals pcl cloud_src downsample)
      (withNormals pcl cloud_tgt downsample) g 30
  · unfold alignLoop
    rw [(alignRounds_pclStalled _ _ _ 30).2]
    norm_num

theorem alignCall_succ [Field α] (pcl : Pcl α) (tgt : PointCloudWithNormals α)
    (g : Matrix4 α) (st : LoopState α) (i : Nat) :
    alignCall pcl tgt g st (i + 1) = pcl.align st.reg st.reg_result tgt 1 := by
  simp [alignCall]

theorem alignCall_zero [Field α] (pcl : Pcl α) (tgt : PointCloudWithNormals α)
    (g : Matrix4 α) (st : LoopState α) :
    alignCall pcl tgt g st 0 = pcl.align st.reg st.reg_result tgt g := by
  simp [alignCall]

theorem alignRounds_Ti_stays [LinearOrderedField α] (pcl : Pcl α)
    (src tgt : PointCloudWithNormals α) (g : Matrix4 α) (k d : Nat)
    (h : ∀ j, k ≤ j → j < k + d →
      (alignCall pcl tgt g (alignRounds pcl src tgt g j) j).finalTransformation = 1) :
    (alignRounds pcl src tgt g (k + d)).Ti = (alignRounds pcl src tgt g k).Ti := by
  induction d with
  | zero => rfl
  | succ e ih =>
    rw [← Nat.add_assoc, alignRounds_succ, alignRound_Ti,
      h (k + e) (Nat.le_add_right k e) (by omega), one_mul]
    exact ih (fun j hj1 hj2 => h j hj1 (by omega))

/-- C7, as stated, fails: with a registration that finds zero correspondences
in every round (so also in round 0), the loop does not exit: it performs all 30
rounds 0, ..., 29. -/
theorem stalled_round_exit_fails :
    (alignCall (pclStalled : Pcl ℚ) (withNormals pclStalled [PointT.mk 1 0 0] false)
      (translationBy 1 0 0)
      (alignInit (withNormals pclStalled [PointT.mk 0 0 0] false)) 0).nr_correspondences = 0 ∧
    (alignLoop (pclStalled : Pcl ℚ) [PointT.mk 0 0 0] [PointT.mk 1 0 0] false
      (translationBy 1 0 0)).log = List.range 30 ∧
    (alignLoop (pclStalled : Pcl ℚ) [PointT.mk 0 0 0] [PointT.mk 1 0 0] false
      (translationBy 1 0 0)).log.length = 30 := by
  refine ⟨by simp [alignCall, pclStalled], ?_, ?_⟩
  · unfold alignLoop
    rw [alignRounds_log]
  · unfold alignLoop
    rw [alignRounds_log]
    simp

/-- C7, amended: the loop has no early exit.  Whatever number of
correspondences a round finds, all 30 rounds 0, ..., 29 are performed and a
result is returned; if round `k` and every later round return the identity as
final transformation (as a registration without correspondences and without
guess does), the running transform `Ti` ends with the value it had before round
`k`, and `final_transform` is the inverse of that value. -/
theorem stalled_round_no_exit [LinearOrderedField α] (pcl : Pcl α)
    (cloud_src cloud_tgt : PointCloud α) (downsample : Bool) (g : Matrix4 α) (k : Nat)
    (hk : k ≤ 30)
    (h : ∀ j, k ≤ j → j < 30 →
      (alignCall pcl (withNormals pcl cloud_tgt downsample) g
        (alignRounds pcl (withNormals pcl cloud_src downsample)
          (withNormals pcl cloud_tgt downsample) g j) j).finalTransformation = 1) :
    (alignLoop pcl cloud_src cloud_tgt downsample g).log = List.range 30 ∧
    (alignLoop pcl cloud_src cloud_tgt downsample g).Ti
      = (alignRounds pcl (withNormals pcl cloud_src downsample)
          (withNormals pcl cloud_tgt downsample) g k).Ti ∧
    (pairAlignWithVisualization pcl cloud_src cloud_tgt downsample g).final_transform
      = inverse (alignRounds pcl (withNormals pcl cloud_src downsample)
          (withNormals pcl cloud_tgt downsample) g k).Ti := by
  have hTi : (alignLoop pcl cloud_src cloud_tgt downsample g).Ti
      = (alignRounds pcl (withNormals pcl cloud_src downsample)
          (withNormals pcl cloud_tgt downsample) g k).Ti := by
    unfold alignLoop
    have h30 : 30 = k + (30 - k) := by omega
    rw [h30]
    exact alignRounds_Ti_stays pcl _ _ g k (30 - k) (fun j hj1 hj2 => h j hj1 (by omega))
  refine ⟨?_, hTi, ?_⟩
  · unfold alignLoop
    rw [alignRounds_log]
  · simp only [pairAlignWithVisualization, hTi]

/-- C7, amended, at a concrete input: the registration finds no correspondences,
the guess is the translation by (1, 0, 0); every round from round 1 on returns
the identity, and `Ti` ends as it was after round 0: the guess. -/
theorem stalled_round_no_exit_witness :
    (alignLoop (pclStalled : Pcl ℚ) [PointT.mk 0 0 0] [PointT.mk 1 0 0] false
      (translationBy 1 0 0)).log = List.range 30 ∧
    (alignLoop (pclStalled : Pcl ℚ) [PointT.mk 0 0 0] [PointT.mk 1 0 0] false
      (translationBy 1 0 0)).Ti = translationBy 1 0 0 ∧
    (pairAlignWithVisualization (pclStalled : Pcl ℚ) [PointT.mk 0 0 0] [PointT.mk 1 0 0]
      false (translationBy 1 0 0)).final_transform = translationBy (-1) 0 0 := by
  have h := stalled_round_no_exit (pclStalled : Pcl ℚ) [PointT.mk 0 0 0] [PointT.mk 1 0 0]
    false (translationBy 1 0 0) 1 (by decide)
    (fun j hj1 _ => by
      obtain ⟨i, rfl⟩ : ∃ i, j = i + 1 := ⟨j - 1, by omega⟩
      rw [alignCall_succ]
      rfl)
  have h1 : (alignRounds (pclStalled : Pcl ℚ) (withNormals pclStalled [PointT.mk 0 0 0] false)
      (withNormals pclStalled [PointT.mk 1 0 0] false) (translationBy 1 0 0) 1).Ti
      = translationBy 1 0 0 := by
    rw [alignRounds_succ, alignRound_Ti, alignRounds_zero, alignCall_zero]
    simp [pclStalled, alignInit]
  rw [h1] at h
  refine ⟨h.1, h.2.1, ?_⟩
  rw [h.2.2, inverse_translationBy]
  simp

/-- C9, as stated, fails: in round 0 of a registration that returns the guess
(the translation by (1, 0, 0)) as final transformation and the identity as last
incremental transformation, the running transform becomes the guess, not the
last incremental transformation times the running transform before. -/
theorem incremental_compose_fails :
    (alignRounds (pclStalled : Pcl ℚ) (withNormals pclStalled [PointT.mk 0 0 0] false)
      (withNormals pclStalled [PointT.mk 1 0 0] false) (translationBy 1 0 0) 1).Ti
      = translationBy 1 0 0 ∧
    (alignCall (pclStalled : Pcl ℚ) (withNormals pclStalled [PointT.mk 1 0 0] false)
        (translationBy 1 0 0)
        (alignRounds (pclStalled : Pcl ℚ) (withNormals pclStalled [PointT.mk 0 0 0] false)
          (withNormals pclStalled [PointT.mk 1 0 0] false) (translationBy 1 0 0) 0)
        0).lastIncrementalTransformation
      * (alignRounds (pclStalled : Pcl ℚ) (withNormals pclStalled [PointT.mk 0 0 0] false)
          (withNormals pclStalled [PointT.mk 1 0 0] false) (translationBy 1 0 0) 0).Ti
      = 1 ∧
    translationBy (1 : ℚ) 0 0 ≠ 1 := by
  refine ⟨?_, ?_, ?_⟩
  · rw [alignRounds_succ, alignRound_Ti, alignRounds_zero, alignCall_zero]
    simp [pclStalled, alignInit]
  · rw [alignRounds_zero, alignCall_zero]
    simp [pclStalled, alignInit]
  · intro h
    have h03 := congrFun (congrFun h 0) 3
    simp [translationBy, Matrix.vecHead, Matrix.vecTail] at h03

/-- C9, amended: every round left-composes the FINAL transformation of its
`align` call (the whole transformation that call estimated, not the incremental
transformation of its last internal step) into the running transform:
`Ti` after round `n` is `getFinalTransformation ()` of round `n` times `Ti`
before round `n`, with `Ti` the identity before round 0; the guess is passed
to `align` in round 0 only, later rounds pass the identity; exactly the 30
rounds 0, ..., 29 are performed. -/
theorem final_transformation_compose [LinearOrderedField α] (pcl : Pcl α)
    (src tgt : PointCloudWithNormals α) (g : Matrix4 α) (n : Nat)
    (cloud_src cloud_tgt : PointCloud α) (downsample : Bool) :
    (alignRounds pcl src tgt g 0).Ti = 1 ∧
    (alignRounds pcl src tgt g (n + 1)).Ti
      = (alignCall pcl tgt g (alignRounds pcl src tgt g n) n).finalTransformation
        * (alignRounds pcl src tgt g n).Ti ∧
    alignCall pcl tgt g (alignRounds pcl src tgt g 0) 0
      = pcl.align (alignRounds pcl src tgt g 0).reg (alignRounds pcl src tgt g 0).reg_result
          tgt g ∧
    alignCall pcl tgt g (alignRounds pcl src tgt g (n + 1)) (n + 1)
      = pcl.align (alignRounds pcl src tgt g (n + 1)).reg
          (alignRounds pcl src tgt g (n + 1)).reg_result tgt 1 ∧
    (alignLoop pcl cloud_src cloud_tgt downsample g).log = List.range 30 := by
  refine ⟨by simp [alignRounds_zero, alignInit], ?_, alignCall_zero _ _ _ _,
    alignCall_succ _ _ _ _ _, ?_⟩
  · rw [alignRounds_succ, alignRound_Ti]
  · unfold alignLoop
    rw [alignRounds_log]

theorem sum_translationBy_sub_one [Field α] (a b c : α) :
    sum (translationBy a b c - 1) = a + b + c := by
  simp [sum, translationBy, Fin.sum_univ_four, Matrix.vecHead, Matrix.vecTail,
    Matrix.one_apply]
  ring

theorem sum_sub_entries [Field α] (A B : Matrix4 α) :
    sum (A - B) = ∑ i : Fin 4, ∑ j : Fin 4, (A i j - B i j) := by
  simp [sum]

theorem sum_entries [Field α] (M : Matrix4 α) :
    sum M = M 0 0 + M 0 1 + M 0 2 + M 0 3 + (M 1 0 + M 1 1 + M 1 2 + M 1 3)
      + (M 2 0 + M 2 1 + M 2 2 + M 2 3) + (M 3 0 + M 3 1 + M 3 2 + M 3 3) := by
  simp [sum, Fin.sum_univ_four]

/-- C10: over exact arithmetic, in every round `n` of the loop of
`pairAlignWithVisualization`, with `prev` the last incremental transformation of
the round before (the identity before round 0) and the transformation epsilon
1/1000000 throughout, maxCorrespondenceDistance is lowered by exactly 1/100 if
and only if the absolute value of the sum over all 16 entries `(i, j)` of
`lastIncremental i j - prev i j` is below the epsilon, and is otherwise
unchanged; `sum ()` is the sum of the 16 entries.  So a last incremental
transformation that differs from `prev` by +1 and -1 in two entries (the
translation by (1, -1, 0) against the identity) shrinks the distance although
single entries differ by more than epsilon, while one that differs by +1 in one
entry (the translation by (1, 0, 0)) does not. -/
theorem shrink_criterion [LinearOrderedField α] (pcl : Pcl α)
    (src tgt : PointCloudWithNormals α) (g M : Matrix4 α) (n : Nat) :
    (alignRounds pcl src tgt g 0).prev = 1 ∧
    (alignRounds pcl src tgt g (n + 1)).prev
      = (alignCall pcl tgt g (alignRounds pcl src tgt g n) n).lastIncrementalTransformation ∧
    (alignRounds pcl src tgt g n).reg.transformationEpsilon = 1 / 1000000 ∧
    (alignRounds pcl src tgt g (n + 1)).reg.maxCorrespondenceDistance
      = (if |∑ i : Fin 4, ∑ j : Fin 4,
              ((alignCall pcl tgt g (alignRounds pcl src tgt g n)
                n).lastIncrementalTransformation i j - (alignRounds pcl src tgt g n).prev i j)|
            < 1 / 1000000
          then (alignRounds pcl src tgt g n).reg.maxCorrespondenceDistance - 1 / 100
          else (alignRounds pcl src tgt g n).reg.maxCorrespondenceDistance) ∧
    ((alignRounds pcl src tgt g (n + 1)).reg.maxCorrespondenceDistance
        = (alignRounds pcl src tgt g n).reg.maxCorrespondenceDistance - 1 / 100
      ↔ |∑ i : Fin 4, ∑ j : Fin 4,
              ((alignCall pcl tgt g (alignRounds pcl src tgt g n)
                n).lastIncrementalTransformation i j - (alignRounds pcl src tgt g n).prev i j)|
            < 1 / 1000000) ∧
    sum M = M 0 0 + M 0 1 + M 0 2 + M 0 3 + (M 1 0 + M 1 1 + M 1 2 + M 1 3)
      + (M 2 0 + M 2 1 + M 2 2 + M 2 3) + (M 3 0 + M 3 1 + M 3 2 + M 3 3) ∧
    (1 : α) / 1000000 < |(translationBy (1 : α) (-1) 0 - 1) 0 3| ∧
    (alignRounds (pclDouble 1 1 (translationBy (1 : α) (-1) 0) 1) src tgt g
      1).reg.maxCorrespondenceDistance = 1 / 10 - 1 / 100 ∧
    (alignRounds (pclDouble 1 1 (translationBy (1 : α) 0 0) 1) src tgt g
      1).reg.maxCorrespondenceDistance = 1 / 10 := by
  have hd : (alignRounds pcl src tgt g (n + 1)).reg.maxCorrespondenceDistance
      = (if |∑ i : Fin 4, ∑ j : Fin 4,
              ((alignCall pcl tgt g (alignRounds pcl src tgt g n)
                n).lastIncrementalTransformation i j - (alignRounds pcl src tgt g n).prev i j)|
            < 1 / 1000000
          then (alignRounds pcl src tgt g n).reg.maxCorrespondenceDistance - 1 / 100
          else (alignRounds pcl src tgt g n).reg.maxCorrespondenceDistance) := by
    rw [alignRounds_succ, alignRound_distance, alignRounds_epsilon, sum_sub_entries]
  refine ⟨by simp [alignRounds_zero, alignInit], ?_, alignRounds_epsilon _ _ _ _ _, hd,
    ?_, sum_entries M, ?_, ?_, ?_⟩
  · rw [alignRounds_succ, alignRound_prev]
  · rw [hd]
    split_ifs with hc
    · exact iff_of_true rfl hc
    · simp only [hc, iff_false]
      intro h
      have : (1 : α) / 100 = 0 := by linarith
      norm_num at this
  · simp [translationBy, Matrix.vecHead, Matrix.vecTail]
    norm_num
  · rw [alignRounds_succ, alignRound_distance, alignRounds_zero, alignCall_zero]
    simp [pclDouble, alignInit, sum_translationBy_sub_one]
  · rw [alignRounds_succ, alignRound_distance, alignRounds_zero, alignCall_zero]
    simp only [pclDouble, alignInit, sum_translationBy_sub_one]
    rw [if_neg]
    norm_num

/-! ## `loadData` and the exit code of `main` -/

theorem loadDataFrom_names [Field α] (files : Files α) (end_index : Int) (fuel : Nat) :
    ∀ (index : Int) (acc : Loaded α), (end_index + 1 - index).toNat ≤ fuel →
      (loadDataFrom files end_index fuel index acc).models.map PCD.f_name
        = acc.models.map PCD.f_name
          ++ (List.range (end_index + 1 - index).toNat).map (fun (k : Nat) => index + (k : Int)) := by
  induction fuel with
  | zero =>
    intro index acc h
    have h0 : (end_index + 1 - index).toNat = 0 := by omega
    simp [loadDataFrom, h0]
  | succ f ih =>
    intro index acc h
    unfold loadDataFrom
    split_ifs with hle
    · have hn : (end_index + 1 - index).toNat = (end_index + 1 - (index + 1)).toNat + 1 := by
        omega
      rw [ih (index + 1) (loadOne files index acc) (by omega), hn, List.range_succ_eq_map]
      simp [loadOne, List.map_map, Function.comp_def]
      intro a _
      ring
    · have h0 : (end_index + 1 - index).toNat = 0 := by omega
      simp [h0]

theorem loadData_names [Field α] (files : Files α) (start_index end_index : Int) :
    (loadData files start_index end_index).models.map PCD.f_name
      = (List.range (end_index + 1 - start_index).toNat).map
          (fun (k : Nat) => start_index + (k : Int)) := by
  unfold loadData
  rw [loadDataFrom_names files end_index _ start_index _ (le_refl _)]
  simp

theorem loadData_isEmpty [Field α] (files : Files α) (start_index end_index : Int) :
    (loadData files start_index end_index).models.isEmpty = true
      ↔ end_index < start_index := by
  have h := congrArg List.length (loadData_names files start_index end_index)
  simp only [List.length_map, List.length_range] at h
  rw [List.isEmpty_iff_length_eq_zero, h]
  omega

theorem loadData_length [Field α] (files : Files α) (start_index end_index : Int) :
    (loadData files start_index end_index).models.length
      = (end_index + 1 - start_index).toNat := by
  have h := congrArg List.length (loadData_names files start_index end_index)
  simpa using h

/-- C8, as stated, fails: when the only scan file of the non-empty range 0..0
cannot be loaded, `loadData` still appends one (empty) cloud, `data` is not
empty, `main` does not take its error exit, its loop has no round, and the exit
code is 0 although no input data could be loaded. -/
theorem exit_code_load_failure_fails :
    (noFiles : Files ℝ).pcdFile 0 = none ∧
    (loadData (noFiles : Files ℝ) 0 0).models.map PCD.cloud = [[]] ∧
    (main (MathLib.mk Real.cos Real.sin Real.sqrt Real.pi) pclStalled noFiles
      (fun _ => false) 0 0).code = some 0 := by
  refine ⟨rfl, ?_, ?_⟩
  · simp [loadData, loadDataFrom, loadOne, noFiles]
  · simp [main, loadData, loadDataFrom, loadOne, noFiles]

/-- C8, amended: for indices the name buffer of `loadData` holds (start at
least -99, end at most 999), `loadData` visits exactly the indices start,
start+1, ..., end, all of which the buffer holds, appending one entry per index
whether or not its files can be loaded; `main` returns the non-zero exit code -1 exactly when the range is
empty (end < start); otherwise it enters its loop of end - start rounds and
returns the exit code 0 when the library calls of every round return, which is
always so for a range of one index. -/
theorem exit_code_empty_range [Field α] (m : MathLib α) (pcl : Pcl α) (files : Files α)
    (returns : Nat → Bool) (start_index end_index : Int)
    (hstart : -99 ≤ start_index) (hend : end_index ≤ 999) :
    (loadData files start_index end_index).models.map PCD.f_name
      = (List.range (end_index + 1 - start_index).toNat).map
          (fun (k : Nat) => start_index + (k : Int)) ∧
    (∀ index ∈ (loadData files start_index end_index).models.map PCD.f_name,
      -99 ≤ index ∧ index ≤ 999) ∧
    (main m pcl files returns start_index end_index).code
      = (if end_index < start_index then some (-1)
          else if (List.range' 1 (end_index - start_index).toNat).all returns then some 0
          else none) ∧
    ((main m pcl files returns start_index end_index).code = some (-1)
      ↔ end_index < start_index) ∧
    (end_index = start_index →
      (main m pcl files returns start_index end_index).code = some 0) := by
  have he := loadData_isEmpty files start_index end_index
  have hl := loadData_length files start_index end_index
  have hcode : (main m pcl files returns start_index end_index).code
      = (if end_index < start_index then some (-1)
          else if (List.range' 1 (end_index - start_index).toNat).all returns then some 0
          else none) := by
    unfold main
    dsimp only
    by_cases hlt : end_index < start_index
    · rw [if_pos (he.mpr hlt), if_pos hlt]
    · have hn : (end_index + 1 - start_index).toNat - 1 = (end_index - start_index).toNat := by
        omega
      rw [if_neg (fun h => hlt (he.mp h)), if_neg hlt, hl, hn]
      split_ifs <;> rfl
  refine ⟨loadData_names files start_index end_index, ?_, hcode, ?_, ?_⟩
  · intro index hmem
    rw [loadData_names, List.mem_map] at hmem
    obtain ⟨k, hk, rfl⟩ := hmem
    rw [List.mem_range] at hk
    omega
  · rw [hcode]
    by_cases hlt : end_index < start_index
    · simp [hlt]
    · rw [if_neg hlt]
      split_ifs <;> simp [hlt]
  · intro heq
    rw [hcode, heq]
    simp

/-- C8, amended, at a concrete input: the scans 0..2 of `threeScans`, with all
library calls returning; the exit code is 0. -/
theorem exit_code_empty_range_witness :
    (-99 : Int) ≤ 0 ∧ (2 : Int) ≤ 999 ∧
    (loadData (threeScans : Files ℝ) 0 2).models.map PCD.f_name = [0, 1, 2] ∧
    (main (MathLib.mk Real.cos Real.sin Real.sqrt Real.pi) pclStalled threeScans
      (fun _ => true) 0 2).code = some 0 := by
  have h := exit_code_empty_range (MathLib.mk Real.cos Real.sin Real.sqrt Real.pi)
    pclStalled (threeScans : Files ℝ) (fun _ => true) 0 2 (by decide) (by decide)
  refine ⟨by decide, by decide, ?_, ?_⟩
  · rw [h.1]
    decide
  · rw [h.2.2.1]
    simp

/-! ## The rigid-transform invariant of the GlobalTransform -/

theorem castSucc_two : (Fin.castSucc (2 : Fin 3) : Fin 4) = 2 := rfl

theorem rotationBlock_mul [Field α] (A B : Matrix4 α)
    (h0 : B 3 0 = 0) (h1 : B 3 1 = 0) (h2 : B 3 2 = 0) :
    rotationBlock (A * B) = rotationBlock A * rotationBlock B := by
  ext i j
  fin_cases i <;> fin_cases j <;>
    simp [rotationBlock, castSucc_two, Matrix.mul_apply, Fin.sum_univ_four,
      Fin.sum_univ_three, h0, h1, h2]

theorem bottom_row_mul [Field α] (A B : Matrix4 α)
    (hA : A 3 0 = 0 ∧ A 3 1 = 0 ∧ A 3 2 = 0 ∧ A 3 3 = 1) (j : Fin 4) :
    (A * B) 3 j = B 3 j := by
  simp [Matrix.mul_apply, Fin.sum_univ_four, hA.1, hA.2.1, hA.2.2.1, hA.2.2.2]

theorem rigidTransform_one [Field α] : RigidTransform (1 : Matrix4 α) := by
  have hb : rotationBlock (1 : Matrix4 α) = 1 := by
    ext i j
    fin_cases i <;> fin_cases j <;> simp [rotationBlock, castSucc_two, Matrix.one_apply]
  refine ⟨?_, ?_, ?_, ?_, ?_, ?_⟩ <;> simp [hb, Matrix.one_apply]

theorem rigidTransform_mul [Field α] {A B : Matrix4 α} (hA : RigidTransform A)
    (hB : RigidTransform B) : RigidTransform (A * B) := by
  obtain ⟨hAo, hAd, hA0, hA1, hA2, hA3⟩ := hA
  obtain ⟨hBo, hBd, hB0, hB1, hB2, hB3⟩ := hB
  have hrow := bottom_row_mul A B ⟨hA0, hA1, hA2, hA3⟩
  have hblock := rotationBlock_mul A B hB0 hB1 hB2
  refine ⟨?_, ?_, ?_, ?_, ?_, ?_⟩
  · rw [hblock, Matrix.transpose_mul, Matrix.mul_assoc,
      ← Matrix.mul_assoc (rotationBlock A).transpose, hAo, Matrix.one_mul, hBo]
  · rw [hblock, Matrix.det_mul, hAd, hBd, one_mul]
  · rw [hrow, hB0]
  · rw [hrow, hB1]
  · rw [hrow, hB2]
  · rw [hrow, hB3]

theorem rigidTransform_translationBy [Field α] (a b c : α) :
    RigidTransform (translationBy a b c) := by
  have hb : rotationBlock (translationBy a b c) = 1 := by
    ext i j
    fin_cases i <;> fin_cases j <;>
      simp [rotationBlock, castSucc_two, translationBy, Matrix.vecHead, Matrix.vecTail]
  refine ⟨by rw [hb]; simp, by rw [hb]; simp, ?_, ?_, ?_, ?_⟩ <;>
    simp [translationBy, Matrix.vecHead, Matrix.vecTail]

theorem rigidTransform_quarterTurn [Field α] (back : Bool) :
    RigidTransform (quarterTurn back : Matrix4 α) := by
  have hrow : (quarterTurn back : Matrix4 α) 3 0 = 0 ∧ (quarterTurn back : Matrix4 α) 3 1 = 0 ∧
      (quarterTurn back : Matrix4 α) 3 2 = 0 ∧ (quarterTurn back : Matrix4 α) 3 3 = 1 := by
    cases back <;> simp [quarterTurn, Matrix.vecHead, Matrix.vecTail]
  have ho : (rotationBlock (quarterTurn back : Matrix4 α)).transpose
      * rotationBlock (quarterTurn back : Matrix4 α) = 1 := by
    ext i j
    cases back <;> fin_cases i <;> fin_cases j <;>
      simp [rotationBlock, castSucc_two, quarterTurn, Matrix.mul_apply, Fin.sum_univ_three,
        Matrix.vecHead, Matrix.vecTail]
  have hd : (rotationBlock (quarterTurn back : Matrix4 α)).det = 1 := by
    cases back <;>
      simp [Matrix.det_fin_three, rotationBlock, castSucc_two, quarterTurn, Matrix.vecHead,
        Matrix.vecTail]
  exact ⟨ho, hd, hrow.1, hrow.2.1, hrow.2.2.1, hrow.2.2.2⟩

/-- C11: over exact arithmetic, starting from the identity, if the pairTransform
that `pairAlign` returns for each of the pairs 1, ..., n is a rigid transform
(top-left 3x3 block orthonormal with determinant +1, bottom row (0, 0, 0, 1)),
then the GlobalTransform after the update of pair n is a rigid transform, for
every number n of processed pairs. -/
theorem globalTransform_rigid [Field α] (m : MathLib α) (pcl : Pcl α)
    (data : List (PCD α)) (poses : List (Vector3 α)) (n : Nat)
    (h : ∀ i, 1 ≤ i → i ≤ n → RigidTransform (pairOf m pcl data poses i).final_transform) :
    RigidTransform (mainLoopFor m pcl data poses n).GlobalTransform := by
  induction n with
  | zero =>
    rw [mainLoopFor_zero]
    exact rigidTransform_one
  | succ k ih =>
    rw [mainLoopFor_succ]
    exact rigidTransform_mul (h (k + 1) (by omega) (le_refl _))
      (ih (fun i h1 h2 => h i h1 (by omega)))

/-- C11 at a concrete input: scans 0, 1, 2 whose pairwise transforms are the
translation by (1, 0, 0) and a quarter turn about z, both rigid; the
GlobalTransform after both pairs is rigid. -/
theorem globalTransform_rigid_witness :
    (∀ i, 1 ≤ i → i ≤ 2 →
      RigidTransform (pairOf (MathLib.mk Real.cos Real.sin Real.sqrt Real.pi)
        (pclDouble (translationBy (-1) 0 0) (quarterTurn true) 1 1)
        (loadData threeScans 0 2).models (loadData threeScans 0 2).poses i).final_transform) ∧
    RigidTransform (mainLoopFor (MathLib.mk Real.cos Real.sin Real.sqrt Real.pi)
      (pclDouble (translationBy (-1) 0 0) (quarterTurn true) 1 1)
      (loadData threeScans 0 2).models (loadData threeScans 0 2).poses 2).GlobalTransform := by
  have hp : ∀ i, 1 ≤ i → i ≤ 2 →
      RigidTransform (pairOf (MathLib.mk Real.cos Real.sin Real.sqrt Real.pi)
        (pclDouble (translationBy (-1) 0 0) (quarterTurn true) 1 1)
        (loadData threeScans 0 2).models (loadData threeScans 0 2).poses i).final_transform := by
    intro i _ _
    simp only [pairOf, pairAlign, pairAlignTi_pclDouble]
    split_ifs
    · rw [inverse_translationBy]
      exact rigidTransform_translationBy _ _ _
    · rw [inverse_quarterTurn]
      exact rigidTransform_quarterTurn _
  exact ⟨hp, globalTransform_rigid _ _ _ _ 2 hp⟩

/-! ## Inverse consistency of the pose-seeded guess -/

theorem vector3_eta (v : Vector3 ℝ) : v = ![v 0, v 1, v 2] := by
  funext i
  fin_cases i <;> rfl

theorem guess_expanded (xs ys ds xt yt dt : ℝ) :
    guess (MathLib.mk Real.cos Real.sin Real.sqrt Real.pi) ![xs, ys, ds] ![xt, yt, dt]
      = !![Real.cos (ds * Real.pi / 180) * Real.cos (dt * Real.pi / 180)
              + Real.sin (ds * Real.pi / 180) * Real.sin (dt * Real.pi / 180),
            -(Real.sin (ds * Real.pi / 180) * Real.cos (dt * Real.pi / 180)
              - Real.cos (ds * Real.pi / 180) * Real.sin (dt * Real.pi / 180)), 0,
            Real.cos (dt * Real.pi / 180) * (xs - xt)
              + Real.sin (dt * Real.pi / 180) * (ys - yt);
          Real.sin (ds * Real.pi / 180) * Real.cos (dt * Real.pi / 180)
              - Real.cos (ds * Real.pi / 180) * Real.sin (dt * Real.pi / 180),
            Real.cos (ds * Real.pi / 180) * Real.cos (dt * Real.pi / 180)
              + Real.sin (ds * Real.pi / 180) * Real.sin (dt * Real.pi / 180), 0,
            -Real.sin (dt * Real.pi / 180) * (xs - xt)
              + Real.cos (dt * Real.pi / 180) * (ys - yt);
          0, 0, 1, 0;
          0, 0, 0, 1] := by
  rw [guess_entries, Real.cos_sub, Real.sin_sub]

theorem pose_matrices_mul (ca sa cb sb xa ya xb yb : ℝ) (hA : sa ^ 2 + ca ^ 2 = 1)
    (hB : sb ^ 2 + cb ^ 2 = 1) :
    (!![ca * cb + sa * sb, -(sa * cb - ca * sb), 0, cb * (xa - xb) + sb * (ya - yb);
        sa * cb - ca * sb, ca * cb + sa * sb, 0, -sb * (xa - xb) + cb * (ya - yb);
        0, 0, 1, 0;
        0, 0, 0, 1] : Matrix4 ℝ)
      * !![cb * ca + sb * sa, -(sb * ca - cb * sa), 0, ca * (xb - xa) + sa * (yb - ya);
          sb * ca - cb * sa, cb * ca + sb * sa, 0, -sa * (xb - xa) + ca * (yb - ya);
          0, 0, 1, 0;
          0, 0, 0, 1] = 1 := by
  ext i j
  fin_cases i <;> fin_cases j <;>
    simp [Matrix.mul_apply, Fin.sum_univ_four, Matrix.vecHead, Matrix.vecTail,
      Matrix.one_apply] <;>
    first
      | ring1
      | linear_combination (sb ^ 2 + cb ^ 2) * hA + hB
      | linear_combination (-(cb * (xa - xb) + sb * (ya - yb))) * hA
      | linear_combination (sb * (xa - xb) - cb * (ya - yb)) * hA

/-- C12: over the reals, for every two poses `a` and `b` the guess built with
source `a` and target `b` times the guess built with source `b` and target `a`
is the 4x4 identity, in either order of the two factors, so swapping the poses
yields the inverse transform; in particular the guess for two equal poses is
the identity. -/
theorem guess_inverse_consistent (a b : Vector3 ℝ) :
    guess (MathLib.mk Real.cos Real.sin Real.sqrt Real.pi) a b
      * guess (MathLib.mk Real.cos Real.sin Real.sqrt Real.pi) b a = 1 ∧
    guess (MathLib.mk Real.cos Real.sin Real.sqrt Real.pi) b a
      * guess (MathLib.mk Real.cos Real.sin Real.sqrt Real.pi) a b = 1 ∧
    inverse (guess (MathLib.mk Real.cos Real.sin Real.sqrt Real.pi) a b)
      = guess (MathLib.mk Real.cos Real.sin Real.sqrt Real.pi) b a ∧
    guess (MathLib.mk Real.cos Real.sin Real.sqrt Real.pi) a a = 1 := by
  have key : ∀ p q : Vector3 ℝ,
      guess (MathLib.mk Real.cos Real.sin Real.sqrt Real.pi) p q
        * guess (MathLib.mk Real.cos Real.sin Real.sqrt Real.pi) q p = 1 := by
    intro p q
    rw [vector3_eta p, vector3_eta q, guess_expanded, guess_expanded]
    exact pose_matrices_mul _ _ _ _ _ _ _ _ (Real.sin_sq_add_cos_sq _)
      (Real.sin_sq_add_cos_sq _)
  refine ⟨key a b, key b a, inverse_of_mul_eq_one (key a b), ?_⟩
  rw [vector3_eta a, guess_entries]
  ext i j
  fin_cases i <;> fin_cases j <;>
    simp [Matrix.vecHead, Matrix.vecTail, Matrix.one_apply]

end PclIcp
